import Mathlib

/-!
Verification development for `collaborative_filtering.py`
(repository hoanhan101/recommender).

Modelling conventions, mirroring the Python/numpy/pandas source:

* A user rating vector (a row of the pandas pivot table
  `user_item_rating_matrix`) is a `List (Option ℚ)`; `none` models a NaN cell
  (missing rating) and `some v` a present rating `v`.
* `np.nanmean` is `nanmean` below: the mean of the present entries, `none`
  (NaN) when no entry is present.
* Results of the scipy correlation distance live in `Option ℝ`; `none` models
  a NaN result (the divisions by zero that numpy turns into NaN).
* The Python test `common_movieIDs == 0` compares a list with an integer,
  which is always `False` in Python; `listIntEq` models this faithfully.
* pandas `sort_values(..., ascending=[0])` is modelled as a stable descending
  insertion sort whose key order puts NaN keys last (pandas default
  `na_position` is `last`). No settled claim depends on the tie order.
* Floating point arithmetic is modelled by exact arithmetic over `ℚ` and `ℝ`.
-/

/-- Present (non-NaN) entries of a rating vector, in order; models the values
`np.nanmean` averages over. -/
def ratedValues (v : List (Option ℚ)) : List ℚ :=
  v.filterMap id

/-- Model of `np.nanmean`: mean over the present entries, NaN (`none`) when
the vector has no present entry. -/
def nanmean (v : List (Option ℚ)) : Option ℚ :=
  if (ratedValues v).isEmpty then none
  else some ((ratedValues v).sum / (ratedValues v).length)

/-- Model of `np.array(user) - np.nanmean(user)` in `find_similarity`:
subtract the nanmean from every present entry; NaN entries stay NaN, and when
the nanmean itself is NaN every entry becomes NaN. -/
def centerVec (v : List (Option ℚ)) : List (Option ℚ) :=
  match nanmean v with
  | none => v.map (fun _ => none)
  | some m => v.map (Option.map (fun x => x - m))

/-- True when position `i` of the vector holds a present value that is
strictly positive; a NaN compares false under `>` in Python/numpy. -/
def posAt (v : List (Option ℚ)) (i : ℕ) : Bool :=
  match v.get? i with
  | some (some x) => decide (0 < x)
  | _ => false

/-- Model of the source list comprehension
`[i for i in range(len(user_1)) if user_1[i] > 0 and user_2[i] > 0]`
applied to the two centered vectors. -/
def commonIDs (c1 c2 : List (Option ℚ)) : List ℕ :=
  (List.range c1.length).filter (fun i => posAt c1 i && posAt c2 i)

/-- Model of `np.array([user[i] for i in common_movieIDs])`: read the listed
positions out of a centered vector. All listed positions hold present values
by construction; the default `0` is never read. -/
def restrictTo (v : List (Option ℚ)) (ids : List ℕ) : List ℚ :=
  ids.map (fun i => ((v.get? i).join).getD 0)

/-- Model of the Python expression `common_movieIDs == 0`: an equality test
between a list and an integer, which Python evaluates to `False` for every
list (empty or not). This is the reason the `return 0` branch of
`find_similarity` is dead code. -/
def listIntEq (_l : List ℕ) (_n : ℕ) : Bool :=
  false

/-- Plain mean of a list of rationals, as `np.average` over a nonempty float
array; only applied to nonempty lists by `correlationDist`. -/
def cmeanQ (u : List ℚ) : ℚ :=
  u.sum / u.length

/-- Centering step inside `scipy.spatial.distance.correlation`
(`u - np.average(u)`). -/
def centerQ (u : List ℚ) : List ℚ :=
  u.map (fun x => x - cmeanQ u)

/-- Model of `np.average(u * v)` for equal-length float arrays. -/
def avgMul (u v : List ℚ) : ℚ :=
  (List.zipWith (fun a b => a * b) u v).sum / (List.zipWith (fun a b => a * b) u v).length

/-- The product `uu * vv` of the two averaged squares inside the scipy
correlation distance, computed on the re-centered vectors. -/
def duv (u v : List ℚ) : ℚ :=
  avgMul (centerQ u) (centerQ u) * avgMul (centerQ v) (centerQ v)

/-- Model of `scipy.spatial.distance.correlation(u, v)` (scipy 1.x, the
version contemporary with the source): re-center both vectors by their plain
means, then return `1 - uv / sqrt(uu * vv)` where `uv`, `uu`, `vv` are the
averaged products. An empty input makes `np.average` return NaN, and
`uu * vv = 0` makes the quotient `0/0` (Cauchy-Schwarz forces `uv = 0`
there), which numpy also turns into NaN; both cases are `none`. -/
noncomputable def correlationDist (u v : List ℚ) : Option ℝ :=
  if u.isEmpty || v.isEmpty then none
  else if duv u v == 0 then none
  else some (1 - ((avgMul (centerQ u) (centerQ v) : ℚ) : ℝ) / Real.sqrt ((duv u v : ℚ) : ℝ))

/-- Model of the source function `find_similarity(user_1, user_2)`: center
both vectors by their nanmeans, restrict both to the positions where both
centered vectors are strictly positive, and (because `common_movieIDs == 0`
is always `False`) unconditionally hand the restricted vectors to the scipy
correlation distance. -/
noncomputable def find_similarity (u1 u2 : List (Option ℚ)) : Option ℝ :=
  if listIntEq (commonIDs (centerVec u1) (centerVec u2)) 0 then some 0
  else
    correlationDist
      (restrictTo (centerVec u1) (commonIDs (centerVec u1) (centerVec u2)))
      (restrictTo (centerVec u2) (commonIDs (centerVec u1) (centerVec u2)))

/-- Decidable companion of `find_similarity`: true exactly when the similarity
is a real number rather than NaN. Used to state hypotheses that a concrete
witness can check by evaluation. -/
def simDefined (u1 u2 : List (Option ℚ)) : Bool :=
  !(restrictTo (centerVec u1) (commonIDs (centerVec u1) (centerVec u2))).isEmpty &&
  !(restrictTo (centerVec u2) (commonIDs (centerVec u1) (centerVec u2))).isEmpty &&
  !(duv (restrictTo (centerVec u1) (commonIDs (centerVec u1) (centerVec u2)))
        (restrictTo (centerVec u2) (commonIDs (centerVec u1) (centerVec u2))) == 0)

/-- The spec-side co-rated index set of §4.2 of the design document, written
from the spec words: all index positions (up to the longer of the two
vectors) where both centered vectors hold a present, strictly positive value.
Compared with the source-side `commonIDs` in the claim about `find_similarity`. -/
def specCommon (u1 u2 : List (Option ℚ)) : List ℕ :=
  (List.range (max u1.length u2.length)).filter
    (fun i => posAt (centerVec u1) i && posAt (centerVec u2) i)

/-- The rating matrix `user_item_rating_matrix`: row labels `userIDs`
(pandas index), column labels `movieIDs` (pandas columns), and one rating
vector per user, aligned with `movieIDs`. -/
structure RatingMatrix where
  userIDs : List ℕ
  movieIDs : List ℕ
  rows : List (List (Option ℚ))

/-- Row lookup `user_item_rating_matrix.loc[u]`. -/
def RatingMatrix.row (R : RatingMatrix) (u : ℕ) : List (Option ℚ) :=
  R.rows.getD (R.userIDs.findIdx (fun x => x == u)) []

/-- Cell lookup `user_item_rating_matrix.loc[u, m]`: `none` is a NaN cell. -/
def RatingMatrix.entryVal (R : RatingMatrix) (u m : ℕ) : Option ℚ :=
  (R.row u).getD (R.movieIDs.findIdx (fun x => x == m)) none

/-- The membership test the source uses everywhere:
`user_item_rating_matrix.loc[u, m] > 0`, false on NaN. -/
def ratingPos (R : RatingMatrix) (u m : ℕ) : Bool :=
  match R.entryVal u m with
  | some v => decide (0 < v)
  | none => false

/-- Bool test `entriesPositive R`: every present rating in the matrix is
strictly positive. This holds for the MovieLens data the program loads
(ratings range over 0.5 to 5.0) and makes the `> 0` membership test agree
with presence. -/
def entriesPositive (R : RatingMatrix) : Bool :=
  R.rows.all (fun r => r.all (fun e =>
    match e with
    | some v => decide (0 < v)
    | none => true))

/-- Key order used to model
`pd.DataFrame.sort_values(..., ascending=[0])`: larger real keys come first
and NaN keys come last (the pandas default `na_position` is `last`). -/
def keyBefore : Option ℝ → Option ℝ → Prop
  | some x, some y => y ≤ x
  | some _, none => True
  | none, some _ => False
  | none, none => True

/-- The sort relation on `(label, value)` rows of a one-column DataFrame. -/
def simRel (p q : ℕ × Option ℝ) : Prop :=
  keyBefore p.2 q.2

noncomputable instance : DecidableRel simRel :=
  fun _ _ => Classical.dec _

instance : IsTotal (ℕ × Option ℝ) simRel where
  total p q := by
    cases hp : p.2 <;> cases hq : q.2 <;>
      simp [simRel, keyBefore, hp, hq, le_total]

instance : IsTrans (ℕ × Option ℝ) simRel where
  trans p q s hpq hqs := by
    cases hp : p.2 <;> cases hq : q.2 <;> cases hs : s.2 <;>
      simp_all [simRel, keyBefore] <;> exact le_trans hqs hpq

/-- The similarity DataFrame built by `find_nearest_neighbour_ratings`: one
row per user, holding the similarity of that user to the active user. -/
noncomputable def simTable (R : RatingMatrix) (active : ℕ) : List (ℕ × Option ℝ) :=
  R.userIDs.map (fun u => (u, find_similarity (R.row active) (R.row u)))

/-- Sort the similarity table descending and keep the first `k` rows
(`similarity_matrix[:k]`); `take` clamps when `k` exceeds the user count. -/
noncomputable def nearestNeighbours (R : RatingMatrix) (active k : ℕ) :
    List (ℕ × Option ℝ) :=
  (List.insertionSort simRel (simTable R active)).take k

/-- NaN-propagating addition of two float values. -/
def optAdd : Option ℝ → Option ℝ → Option ℝ
  | some x, some y => some (x + y)
  | _, _ => none

/-- The contribution one neighbour row adds to the predicted rating of item
`m`: when the neighbour has a rating `> 0` for `m` it adds
`(rating - nanmean(neighbour row)) * similarity`, otherwise nothing
(modelled as adding `0`). A NaN similarity poisons the sum, as in numpy. -/
noncomputable def predContrib (R : RatingMatrix) (u m : ℕ) (sim : Option ℝ) :
    Option ℝ :=
  match R.entryVal u m with
  | some v =>
    if 0 < v then
      match nanmean (R.row u), sim with
      | some mu, some sv => some (((v - mu : ℚ) : ℝ) * sv)
      | _, _ => none
    else some 0
  | none => some 0

/-- The predicted rating of one item for the active user: seed with the
nanmean of the active user row, then add each neighbour contribution in
neighbour order. -/
noncomputable def predictedRating (R : RatingMatrix) (active : ℕ)
    (neigh : List (ℕ × Option ℝ)) (m : ℕ) : Option ℝ :=
  neigh.foldl (fun acc p => optAdd acc (predContrib R p.1 m p.2))
    ((nanmean (R.row active)).map (fun q => (q : ℝ)))

/-- Model of the source function `find_nearest_neighbour_ratings(active, k)`:
one predicted rating per matrix column. -/
noncomputable def find_nearest_neighbour_ratings (R : RatingMatrix)
    (active k : ℕ) : List (ℕ × Option ℝ) :=
  R.movieIDs.map (fun m => (m, predictedRating R active (nearestNeighbours R active k) m))

/-- The watched-movie list of `find_top_n_recommendations`: columns where the
active user row is `> 0`. -/
def watchedMovies (R : RatingMatrix) (active : ℕ) : List ℕ :=
  R.movieIDs.filter (fun m => ratingPos R active m)

/-- The predicted-ratings DataFrame after `drop(watched_movies)`: the rows
whose labels are not watched, in original column order. -/
noncomputable def remainingPreds (R : RatingMatrix) (active : ℕ) :
    List (ℕ × Option ℝ) :=
  (find_nearest_neighbour_ratings R active 10).filter
    (fun p => !((watchedMovies R active).contains p.1))

/-- The `top_recommendations` DataFrame: remaining predictions sorted
descending by rating, first `n` rows kept. -/
noncomputable def topSelection (R : RatingMatrix) (active n : ℕ) :
    List (ℕ × Option ℝ) :=
  (List.insertionSort simRel (remainingPreds R active)).take n

/-- Model of the source function `find_top_n_recommendations(active, n)`.
The final line of the source selects the rows of `movies_data` whose movieID
is in the top index (`movies_data.movieID.isin(...)`), so the output order is
the catalog (movies table) order, not the sorted order; the out-of-scope
title join is dropped and the movieIDs themselves are returned. -/
noncomputable def find_top_n_recommendations (R : RatingMatrix)
    (catalog : List ℕ) (active n : ℕ) : List ℕ :=
  catalog.filter (fun m => ((topSelection R active n).map Prod.fst).contains m)

/-- Dot product `np.dot` of two factor vectors. -/
def dotQ (u v : List ℚ) : ℚ :=
  (List.zipWith (fun a b => a * b) u v).sum

/-- Squared euclidean norm: `pow(np.linalg.norm(x), 2)` equals the sum of
squares exactly over the reals, which is how the source objective uses it. -/
def normSq (u : List ℚ) : ℚ :=
  (u.map (fun x => x ^ 2)).sum

/-- The mutable state of `perform_matrix_factorization`: the rating matrix
`R` (read, never assigned by the source) and the factor matrices `P`
(rows aligned with `R.userIDs`) and `Q` (rows aligned with `R.movieIDs`).
The random initialisation of `P` and `Q` (`np.random.rand`) is external
nondeterminism: the trainer is modelled as a function of the initial
matrices. -/
structure MFState where
  R : RatingMatrix
  P : List (List ℚ)
  Q : List (List ℚ)

/-- Position of user label `i` in the factor matrix `P` (`P.loc[i]`). -/
def idxOfUser (R : RatingMatrix) (i : ℕ) : ℕ :=
  R.userIDs.findIdx (fun x => x == i)

/-- Position of item label `j` in the factor matrix `Q` (`Q.loc[j]`). -/
def idxOfMovie (R : RatingMatrix) (j : ℕ) : ℕ :=
  R.movieIDs.findIdx (fun x => x == j)

/-- The factor row of user `i` in a training state (`P.loc[i]`). -/
def userRow (s : MFState) (i : ℕ) : List ℚ :=
  s.P.getD (idxOfUser s.R i) []

/-- The factor row of item `j` in a training state (`Q.loc[j]`). -/
def itemRow (s : MFState) (j : ℕ) : List ℚ :=
  s.Q.getD (idxOfMovie s.R j) []

/-- One inner-loop body of the SGD sweep, at user label `i` and item label
`j`: if the rating exists (`R.loc[i,j] > 0`, false on NaN), compute the error
with the current factors, assign the new user row, then assign the new item
row computed from the already-updated user row, exactly in source order.
Otherwise the state is untouched. -/
def sgdStep (gamma lamda : ℚ) (s : MFState) (i j : ℕ) : MFState :=
  match s.R.entryVal i j with
  | some v =>
    if 0 < v then
      let Pi := userRow s i
      let Qj := itemRow s j
      let e := v - dotQ Pi Qj
      let Pi2 := List.zipWith (fun p q => p + gamma * (e * q - lamda * p)) Pi Qj
      let Qj2 := List.zipWith (fun q p => q + gamma * (e * p - lamda * q)) Qj Pi2
      { s with P := s.P.set (idxOfUser s.R i) Pi2, Q := s.Q.set (idxOfMovie s.R j) Qj2 }
    else s
  | none => s

/-- One full epoch: the row-major double loop
`for i in R.index: for j in R.columns: ...` of the source. -/
def mfEpoch (gamma lamda : ℚ) (s : MFState) : MFState :=
  s.R.userIDs.foldl
    (fun s1 i => s.R.movieIDs.foldl (fun s2 j => sgdStep gamma lamda s2 i j) s1) s

/-- One summand of the end-of-epoch objective at `(i, j)`: zero unless the
rating exists (`> 0`), else squared error plus
`lamda * (normSq(P.loc[i]) + normSq(Q.loc[j]))`. -/
def errTerm (lamda : ℚ) (s : MFState) (i j : ℕ) : ℚ :=
  match s.R.entryVal i j with
  | some v =>
    if 0 < v then
      (v - dotQ (userRow s i) (itemRow s j)) ^ 2
        + lamda * (normSq (userRow s i) + normSq (itemRow s j))
    else 0
  | none => 0

/-- The end-of-epoch objective `e` accumulated by the source double loop. -/
def errTot (lamda : ℚ) (s : MFState) : ℚ :=
  (s.R.userIDs.map (fun i => (s.R.movieIDs.map (fun j => errTerm lamda s i j)).sum)).sum

/-- The training loop: up to `steps` epochs, stopping after any epoch whose
objective drops below `0.001` (`if e < 0.001: break`). -/
def trainLoop (gamma lamda : ℚ) : ℕ → MFState → MFState
  | 0, s => s
  | t + 1, s =>
    let s1 := mfEpoch gamma lamda s
    if errTot lamda s1 < 1 / 1000 then s1 else trainLoop gamma lamda t s1

/-- Model of the source function
`perform_matrix_factorization(R, K, steps, gamma, lamda)`. `K` only sizes the
random initial factor matrices in the source; here the initial matrices are
arguments and `K` reappears in the shape hypotheses of the theorems. Returns
the pair `(P, Q)` in every case, converged or not. -/
def perform_matrix_factorization (R : RatingMatrix) (K : ℕ) (steps : ℕ)
    (gamma lamda : ℚ) (P0 Q0 : List (List ℚ)) : List (List ℚ) × List (List ℚ) :=
  let _ := K
  let s := trainLoop gamma lamda steps ⟨R, P0, Q0⟩
  (s.P, s.Q)

/-- The objective of §4.4 step 3 of the design document, written from the
spec words: the sum over known (present) ratings of squared error plus
`lamda` times the squared norms of the two factor rows. Compared with the
source objective `errTot`, whose membership test is `> 0` instead of
presence. -/
def errSpecObjective (lamda : ℚ) (s : MFState) : ℚ :=
  (s.R.userIDs.map (fun i =>
    (s.R.movieIDs.map (fun j =>
      match s.R.entryVal i j with
      | some v =>
        (v - dotQ (userRow s i) (itemRow s j)) ^ 2
          + lamda * (normSq (userRow s i) + normSq (itemRow s j))
      | none => 0)).sum)).sum

/-- Shape invariant for the factor matrices: one row per user of `R` in `P`,
one row per item of `R` in `Q`, all rows of length `K`. -/
def ShapeOK (R : RatingMatrix) (K : ℕ) (P Q : List (List ℚ)) : Prop :=
  P.length = R.userIDs.length ∧ (∀ r ∈ P, r.length = K) ∧
  Q.length = R.movieIDs.length ∧ (∀ r ∈ Q, r.length = K)

/-- The per-neighbour term of the spec formula for neighbourhood prediction
(§4.3 steps 3 and 4 of the design document, written from the spec words):
`similarity * (rating - neighbour mean)` when the neighbour has rated the
item, `0` otherwise. -/
noncomputable def specNeighbourTerm (R : RatingMatrix) (m : ℕ)
    (p : ℕ × Option ℝ) : ℝ :=
  match R.entryVal p.1 m with
  | some v => (p.2.getD 0) * ((v : ℝ) - (((nanmean (R.row p.1)).getD 0 : ℚ) : ℝ))
  | none => 0

/-- Catalog used by the concrete test instances: the movies table order. -/
def exCat : List ℕ := [1, 2, 3, 4, 5]

/-- Concrete two-user rating matrix: user 1 rated movies 1, 2, 3 and user 2
rated all five movies. Chosen so that both similarities evaluate to nice
rational values. -/
def exR : RatingMatrix :=
  ⟨[1, 2], [1, 2, 3, 4, 5],
    [[some 8, some 6, some 1, none, none], [some 6, some 8, some 1, some 2, some 3]]⟩

/-- Variant of `exR` where user 1 additionally holds the present rating `0`
for movie 4, exercising the `> 0` membership test. -/
def exR2 : RatingMatrix :=
  ⟨[1, 2], [1, 2, 3, 4, 5],
    [[some 8, some 6, some 1, some 0, none], [some 6, some 8, some 1, some 2, some 3]]⟩

/-- Minimal one-user, one-item rating matrix for the factorization witnesses. -/
def exR3 : RatingMatrix := ⟨[1], [1], [[some 1]]⟩

theorem simDefined_isSome (u1 u2 : List (Option ℚ)) (h : simDefined u1 u2 = true) :
    (find_similarity u1 u2).isSome := by
  unfold simDefined at h
  simp only [Bool.and_eq_true, Bool.not_eq_true'] at h
  obtain ⟨⟨h1, h2⟩, h3⟩ := h
  unfold find_similarity correlationDist listIntEq
  simp [h1, h2, h3]

theorem centerVec_length (v : List (Option ℚ)) : (centerVec v).length = v.length := by
  unfold centerVec
  cases nanmean v <;> simp

theorem posAt_of_ge (v : List (Option ℚ)) (i : ℕ) (h : v.length ≤ i) :
    posAt v i = false := by
  unfold posAt
  rw [List.get?_eq_none.mpr h]

theorem commonIDs_eq_specCommon (u1 u2 : List (Option ℚ)) :
    commonIDs (centerVec u1) (centerVec u2) = specCommon u1 u2 := by
  unfold commonIDs specCommon
  rw [centerVec_length]
  rcases Nat.le_total u1.length u2.length with h | h
  · rw [max_eq_right h, ← Nat.add_sub_cancel' h, List.range_add, List.filter_append]
    have hz :
        (((List.range (u2.length - u1.length)).map (u1.length + ·)).filter
          (fun i => posAt (centerVec u1) i && posAt (centerVec u2) i)) = [] := by
      apply List.filter_eq_nil.mpr
      intro a ha
      obtain ⟨b, _, rfl⟩ := List.mem_map.mp ha
      rw [posAt_of_ge (centerVec u1) _ (by rw [centerVec_length]; omega)]
      simp
    rw [hz, List.append_nil]
  · rw [max_eq_left h]

/-- Claim C4: `find_similarity` centers each vector by its own nanmean, then
restricts both vectors to exactly the positions where both centered values
are present and strictly positive, and computes the scipy correlation
distance over the restricted vectors (the `return 0` branch being dead
code, this happens unconditionally). -/
theorem claim_C4_similarity_pipeline (u1 u2 : List (Option ℚ)) :
    find_similarity u1 u2 =
      correlationDist (restrictTo (centerVec u1) (specCommon u1 u2))
        (restrictTo (centerVec u2) (specCommon u1 u2)) := by
  unfold find_similarity listIntEq
  rw [commonIDs_eq_specCommon]
  simp

theorem avgMul_comm (u v : List ℚ) : avgMul u v = avgMul v u := by
  unfold avgMul
  rw [List.zipWith_comm_of_comm (fun a b => a * b) mul_comm]

theorem duv_comm (u v : List ℚ) : duv u v = duv v u := by
  unfold duv
  rw [mul_comm]

theorem correlationDist_comm (u v : List ℚ) :
    correlationDist u v = correlationDist v u := by
  unfold correlationDist
  rw [Bool.or_comm, duv_comm, avgMul_comm]

theorem commonIDs_center_swap (u1 u2 : List (Option ℚ)) (h : u1.length = u2.length) :
    commonIDs (centerVec u2) (centerVec u1) = commonIDs (centerVec u1) (centerVec u2) := by
  unfold commonIDs
  rw [centerVec_length, centerVec_length, h]
  exact List.filter_congr (fun i _ => by rw [Bool.and_comm])

/-- Claim C8: similarity is symmetric on pairs of equal-length rating vectors
(rows of one rating matrix) with a non-empty co-rated set. -/
theorem claim_C8_similarity_symm (u1 u2 : List (Option ℚ))
    (hlen : u1.length = u2.length)
    (hne : commonIDs (centerVec u1) (centerVec u2) ≠ []) :
    find_similarity u1 u2 = find_similarity u2 u1 := by
  unfold find_similarity listIntEq
  rw [commonIDs_center_swap u1 u2 hlen, correlationDist_comm]

/-- Claim C1 (code divergence): two users who each rated only movie 0 with
the same value have an empty co-rated set after centering, and
`find_similarity` returns NaN (`none`), not `0`: the guard
`common_movieIDs == 0` compares a list against an integer and is always
`False` in Python, so scipy is called on empty arrays. -/
theorem claim_C1_empty_corated_gives_nan :
    find_similarity [some 1] [some 1] = none := by
  have hc : commonIDs (centerVec [some 1]) (centerVec [some 1]) = [] := by
    norm_num [commonIDs, centerVec, nanmean, ratedValues, List.filterMap_cons,
      posAt, List.range_succ]
  unfold find_similarity listIntEq
  rw [hc]
  simp [restrictTo, correlationDist]

theorem exR_row1 : exR.row 1 = [some 8, some 6, some 1, none, none] := rfl

theorem exR_row2 : exR.row 2 = [some 6, some 8, some 1, some 2, some 3] := rfl

theorem exR_nanmean1 : nanmean [some 8, some 6, some 1, none, none] = some 5 := by
  norm_num [nanmean, ratedValues, List.filterMap_cons]

theorem exR_nanmean2 : nanmean [some 6, some 8, some 1, some 2, some 3] = some 4 := by
  norm_num [nanmean, ratedValues, List.filterMap_cons]

theorem corr_31_31 : correlationDist [3, 1] [3, 1] = some 0 := by
  have h1 : duv [3, 1] [3, 1] = 1 := by norm_num [duv, avgMul, centerQ, cmeanQ]
  have h2 : avgMul (centerQ [3, 1]) (centerQ [3, 1]) = 1 := by
    norm_num [avgMul, centerQ, cmeanQ]
  unfold correlationDist
  rw [h1, h2]
  norm_num [Real.sqrt_one]

theorem corr_31_24 : correlationDist [3, 1] [2, 4] = some 2 := by
  have h1 : duv [3, 1] [2, 4] = 1 := by norm_num [duv, avgMul, centerQ, cmeanQ]
  have h2 : avgMul (centerQ [3, 1]) (centerQ [2, 4]) = -1 := by
    norm_num [avgMul, centerQ, cmeanQ]
  unfold correlationDist
  rw [h1, h2]
  norm_num [Real.sqrt_one]

theorem exR_common12 :
    commonIDs (centerVec [some 8, some 6, some 1, none, none])
      (centerVec [some 6, some 8, some 1, some 2, some 3]) = [0, 1] := by
  norm_num [commonIDs, centerVec, nanmean, ratedValues, List.filterMap_cons, posAt,
    List.range_succ, List.filter_append]

theorem exR_common11 :
    commonIDs (centerVec [some 8, some 6, some 1, none, none])
      (centerVec [some 8, some 6, some 1, none, none]) = [0, 1] := by
  norm_num [commonIDs, centerVec, nanmean, ratedValues, List.filterMap_cons, posAt,
    List.range_succ, List.filter_append]

theorem sim_ex_self :
    find_similarity [some 8, some 6, some 1, none, none]
      [some 8, some 6, some 1, none, none] = some 0 := by
  have hr : restrictTo (centerVec [some 8, some 6, some 1, none, none]) [0, 1] = [3, 1] := by
    norm_num [restrictTo, centerVec, nanmean, ratedValues, List.filterMap_cons]
  unfold find_similarity
  rw [if_neg (by simp [listIntEq]), exR_common11, hr]
  exact corr_31_31

theorem sim_ex_12 :
    find_similarity [some 8, some 6, some 1, none, none]
      [some 6, some 8, some 1, some 2, some 3] = some 2 := by
  have hr1 : restrictTo (centerVec [some 8, some 6, some 1, none, none]) [0, 1] = [3, 1] := by
    norm_num [restrictTo, centerVec, nanmean, ratedValues, List.filterMap_cons]
  have hr2 : restrictTo (centerVec [some 6, some 8, some 1, some 2, some 3]) [0, 1] = [2, 4] := by
    norm_num [restrictTo, centerVec, nanmean, ratedValues, List.filterMap_cons]
  unfold find_similarity
  rw [if_neg (by simp [listIntEq]), exR_common12, hr1, hr2]
  exact corr_31_24

theorem exR_simTable : simTable exR 1 = [(1, some 0), (2, some 2)] := by
  unfold simTable
  rw [show exR.userIDs = [1, 2] from rfl]
  simp only [List.map_cons, List.map_nil]
  rw [exR_row1, exR_row2, sim_ex_self, sim_ex_12]

theorem exR_neigh : nearestNeighbours exR 1 10 = [(2, some 2), (1, some 0)] := by
  unfold nearestNeighbours
  rw [exR_simTable]
  have hs : List.insertionSort simRel [(1, some (0 : ℝ)), (2, some 2)]
      = [(2, some 2), (1, some 0)] := by
    simp only [List.insertionSort, List.orderedInsert]
    rw [if_neg (by norm_num [simRel, keyBefore])]
  rw [hs]
  rfl

theorem exR_contrib_2_4 : predContrib exR 2 4 (some 2) = some (-4) := by
  have hm : nanmean (exR.row 2) = some 4 := by rw [exR_row2]; exact exR_nanmean2
  unfold predContrib
  rw [show exR.entryVal 2 4 = some 2 from rfl, hm]
  norm_num

theorem exR_contrib_2_5 : predContrib exR 2 5 (some 2) = some (-2) := by
  have hm : nanmean (exR.row 2) = some 4 := by rw [exR_row2]; exact exR_nanmean2
  unfold predContrib
  rw [show exR.entryVal 2 5 = some 3 from rfl, hm]
  norm_num

theorem exR_contrib_1_4 : predContrib exR 1 4 (some 0) = some 0 := rfl

theorem exR_contrib_1_5 : predContrib exR 1 5 (some 0) = some 0 := rfl

theorem exR_pred4 :
    predictedRating exR 1 [(2, some 2), (1, some 0)] 4 = some 1 := by
  unfold predictedRating
  rw [show exR.row 1 = [some 8, some 6, some 1, none, none] from rfl, exR_nanmean1]
  simp only [List.foldl_cons, List.foldl_nil, Option.map_some']
  rw [exR_contrib_2_4, exR_contrib_1_4]
  simp only [optAdd]
  norm_num

theorem exR_pred5 :
    predictedRating exR 1 [(2, some 2), (1, some 0)] 5 = some 3 := by
  unfold predictedRating
  rw [show exR.row 1 = [some 8, some 6, some 1, none, none] from rfl, exR_nanmean1]
  simp only [List.foldl_cons, List.foldl_nil, Option.map_some']
  rw [exR_contrib_2_5, exR_contrib_1_5]
  simp only [optAdd]
  norm_num

theorem exR_watched : watchedMovies exR 1 = [1, 2, 3] := rfl

theorem exR_remaining :
    remainingPreds exR 1 =
      [(4, predictedRating exR 1 [(2, some 2), (1, some 0)] 4),
       (5, predictedRating exR 1 [(2, some 2), (1, some 0)] 5)] := by
  unfold remainingPreds find_nearest_neighbour_ratings
  rw [exR_neigh, exR_watched, show exR.movieIDs = [1, 2, 3, 4, 5] from rfl]
  simp only [List.map_cons, List.map_nil]
  simp [List.filter]

theorem exR_topSel : topSelection exR 1 2 = [(5, some 3), (4, some 1)] := by
  unfold topSelection
  rw [exR_remaining, exR_pred4, exR_pred5]
  have hs : List.insertionSort simRel [(4, some (1 : ℝ)), (5, some 3)]
      = [(5, some 3), (4, some 1)] := by
    simp only [List.insertionSort, List.orderedInsert]
    rw [if_neg (by norm_num [simRel, keyBefore])]
  rw [hs]
  rfl

theorem exR_topn : find_top_n_recommendations exR exCat 1 2 = [4, 5] := by
  unfold find_top_n_recommendations
  rw [exR_topSel]
  rfl

/-- Claim C2 (counterexample): on the concrete matrix `exR` the returned
sequence is `[4, 5]` (catalog order), although movie 4 has predicted rating
`1` and movie 5 has predicted rating `3`: the pair is in strictly ascending
order of predicted value, so the returned sequence is not sorted descending.
The cause is the final `movies_data.movieID.isin(...)` selection, which
reorders the top items by catalog position. -/
theorem claim_C2_counterexample :
    find_top_n_recommendations exR exCat 1 2 = [4, 5] ∧
    predictedRating exR 1 (nearestNeighbours exR 1 10) 4 = some 1 ∧
    predictedRating exR 1 (nearestNeighbours exR 1 10) 5 = some 3 ∧
    ¬ keyBefore (some (1 : ℝ)) (some 3) := by
  refine ⟨exR_topn, ?_, ?_, by norm_num [keyBefore]⟩
  · rw [exR_neigh]
    exact exR_pred4
  · rw [exR_neigh]
    exact exR_pred5

/-- Claim C2 (amended): the n selected items are drawn from the remaining
predictions sorted descending (NaN keys last), and that internal selection is
sorted descending by predicted value; but the function returns the selected
items reordered by catalog (movies table) position, not in sorted order. -/
theorem claim_C2_amended (R : RatingMatrix) (catalog : List ℕ) (active n : ℕ) :
    find_top_n_recommendations R catalog active n =
      catalog.filter (fun m => ((topSelection R active n).map Prod.fst).contains m) ∧
    List.Sorted keyBefore ((topSelection R active n).map Prod.snd) := by
  constructor
  · rfl
  · have h1 : List.Sorted simRel (List.insertionSort simRel (remainingPreds R active)) :=
      List.sorted_insertionSort simRel _
    have h2 : List.Sorted simRel (topSelection R active n) :=
      List.Pairwise.sublist (List.take_sublist n _) h1
    exact List.pairwise_map.mpr h2

/-- Claim C7 (amended): no item rated strictly positively by the active user
ever appears in the output of `find_top_n_recommendations`; the exclusion
test is `rating > 0`, not presence of a rating. -/
theorem claim_C7_amended (R : RatingMatrix) (catalog : List ℕ) (active n m : ℕ)
    (hm : m ∈ find_top_n_recommendations R catalog active n) :
    ratingPos R active m = false := by
  unfold find_top_n_recommendations at hm
  obtain ⟨_, hcont⟩ := List.mem_filter.mp hm
  have hmem : m ∈ (topSelection R active n).map Prod.fst := List.elem_iff.mp hcont
  obtain ⟨p, hp, hpm⟩ := List.mem_map.mp hmem
  have hp2 : p ∈ List.insertionSort simRel (remainingPreds R active) :=
    (List.take_sublist n _).mem hp
  have hp3 : p ∈ remainingPreds R active := (List.mem_insertionSort simRel).mp hp2
  unfold remainingPreds at hp3
  obtain ⟨hp4, hnw⟩ := List.mem_filter.mp hp3
  have hmov : p.1 ∈ R.movieIDs := by
    unfold find_nearest_neighbour_ratings at hp4
    obtain ⟨m2, hm2, hm2e⟩ := List.mem_map.mp hp4
    rw [← hm2e]
    exact hm2
  by_contra hpos
  have hpos2 : ratingPos R active m = true := by
    cases h : ratingPos R active m
    · exact absurd h hpos
    · rfl
  have hw : p.1 ∈ watchedMovies R active := by
    unfold watchedMovies
    exact List.mem_filter.mpr ⟨hmov, by rw [hpm]; exact hpos2⟩
  rw [Bool.not_eq_eq_eq_not, Bool.not_true] at hnw
  have hc : (watchedMovies R active).contains p.1 = true := List.elem_iff.mpr hw
  rw [hc] at hnw
  simp at hnw

/-- Witness for the amended claim C7 at the concrete instance: movie 4 is in
the output for user 1, and indeed user 1 has no strictly positive rating for
movie 4. -/
theorem claim_C7_witness :
    4 ∈ find_top_n_recommendations exR exCat 1 2 ∧ ratingPos exR 1 4 = false := by
  have hmem : 4 ∈ find_top_n_recommendations exR exCat 1 2 := by
    rw [exR_topn]
    simp
  exact ⟨hmem, claim_C7_amended exR exCat 1 2 4 hmem⟩

theorem exR2_row1 : exR2.row 1 = [some 8, some 6, some 1, some 0, none] := rfl

theorem exR2_row2 : exR2.row 2 = [some 6, some 8, some 1, some 2, some 3] := rfl

theorem exR2_nanmean1 :
    nanmean [some 8, some 6, some 1, some 0, none] = some (15 / 4) := by
  norm_num [nanmean, ratedValues, List.filterMap_cons]

theorem corr_ex2_self :
    correlationDist [17 / 4, 9 / 4] [17 / 4, 9 / 4] = some 0 := by
  have h1 : duv [17 / 4, 9 / 4] [17 / 4, 9 / 4] = 1 := by
    norm_num [duv, avgMul, centerQ, cmeanQ]
  have h2 : avgMul (centerQ [17 / 4, 9 / 4]) (centerQ [17 / 4, 9 / 4]) = 1 := by
    norm_num [avgMul, centerQ, cmeanQ]
  unfold correlationDist
  rw [h1, h2]
  norm_num [Real.sqrt_one]

theorem corr_ex2_12 : correlationDist [17 / 4, 9 / 4] [2, 4] = some 2 := by
  have h1 : duv [17 / 4, 9 / 4] [2, 4] = 1 := by
    norm_num [duv, avgMul, centerQ, cmeanQ]
  have h2 : avgMul (centerQ [17 / 4, 9 / 4]) (centerQ [2, 4]) = -1 := by
    norm_num [avgMul, centerQ, cmeanQ]
  unfold correlationDist
  rw [h1, h2]
  norm_num [Real.sqrt_one]

theorem exR2_common11 :
    commonIDs (centerVec [some 8, some 6, some 1, some 0, none])
      (centerVec [some 8, some 6, some 1, some 0, none]) = [0, 1] := by
  norm_num [commonIDs, centerVec, nanmean, ratedValues, List.filterMap_cons, posAt,
    List.range_succ, List.filter_append]

theorem exR2_common12 :
    commonIDs (centerVec [some 8, some 6, some 1, some 0, none])
      (centerVec [some 6, some 8, some 1, some 2, some 3]) = [0, 1] := by
  norm_num [commonIDs, centerVec, nanmean, ratedValues, List.filterMap_cons, posAt,
    List.range_succ, List.filter_append]

theorem exR2_restrict1 :
    restrictTo (centerVec [some 8, some 6, some 1, some 0, none]) [0, 1]
      = [17 / 4, 9 / 4] := by
  norm_num [restrictTo, centerVec, nanmean, ratedValues, List.filterMap_cons]

theorem sim_ex2_self :
    find_similarity [some 8, some 6, some 1, some 0, none]
      [some 8, some 6, some 1, some 0, none] = some 0 := by
  unfold find_similarity
  rw [if_neg (by simp [listIntEq]), exR2_common11, exR2_restrict1]
  exact corr_ex2_self

theorem sim_ex2_12 :
    find_similarity [some 8, some 6, some 1, some 0, none]
      [some 6, some 8, some 1, some 2, some 3] = some 2 := by
  have hr2 : restrictTo (centerVec [some 6, some 8, some 1, some 2, some 3]) [0, 1]
      = [2, 4] := by
    norm_num [restrictTo, centerVec, nanmean, ratedValues, List.filterMap_cons]
  unfold find_similarity
  rw [if_neg (by simp [listIntEq]), exR2_common12, exR2_restrict1, hr2]
  exact corr_ex2_12

theorem exR2_simTable : simTable exR2 1 = [(1, some 0), (2, some 2)] := by
  unfold simTable
  rw [show exR2.userIDs = [1, 2] from rfl]
  simp only [List.map_cons, List.map_nil]
  rw [exR2_row1, exR2_row2, sim_ex2_self, sim_ex2_12]

theorem exR2_neigh : nearestNeighbours exR2 1 10 = [(2, some 2), (1, some 0)] := by
  unfold nearestNeighbours
  rw [exR2_simTable]
  have hs : List.insertionSort simRel [(1, some (0 : ℝ)), (2, some 2)]
      = [(2, some 2), (1, some 0)] := by
    simp only [List.insertionSort, List.orderedInsert]
    rw [if_neg (by norm_num [simRel, keyBefore])]
  rw [hs]
  rfl

theorem exR2_contrib_2_4 : predContrib exR2 2 4 (some 2) = some (-4) := by
  have hm : nanmean (exR2.row 2) = some 4 := by rw [exR2_row2]; exact exR_nanmean2
  unfold predContrib
  rw [show exR2.entryVal 2 4 = some 2 from rfl, hm]
  norm_num

theorem exR2_contrib_2_5 : predContrib exR2 2 5 (some 2) = some (-2) := by
  have hm : nanmean (exR2.row 2) = some 4 := by rw [exR2_row2]; exact exR_nanmean2
  unfold predContrib
  rw [show exR2.entryVal 2 5 = some 3 from rfl, hm]
  norm_num

theorem exR2_contrib_1_4 : predContrib exR2 1 4 (some 0) = some 0 := by
  unfold predContrib
  rw [show exR2.entryVal 1 4 = some 0 from rfl]
  norm_num

theorem exR2_contrib_1_5 : predContrib exR2 1 5 (some 0) = some 0 := rfl

theorem exR2_pred4 :
    predictedRating exR2 1 [(2, some 2), (1, some 0)] 4 = some (-(1 / 4)) := by
  unfold predictedRating
  rw [show exR2.row 1 = [some 8, some 6, some 1, some 0, none] from rfl, exR2_nanmean1]
  simp only [List.foldl_cons, List.foldl_nil, Option.map_some']
  rw [exR2_contrib_2_4, exR2_contrib_1_4]
  simp only [optAdd]
  norm_num

theorem exR2_pred5 :
    predictedRating exR2 1 [(2, some 2), (1, some 0)] 5 = some (7 / 4) := by
  unfold predictedRating
  rw [show exR2.row 1 = [some 8, some 6, some 1, some 0, none] from rfl, exR2_nanmean1]
  simp only [List.foldl_cons, List.foldl_nil, Option.map_some']
  rw [exR2_contrib_2_5, exR2_contrib_1_5]
  simp only [optAdd]
  norm_num

theorem exR2_watched : watchedMovies exR2 1 = [1, 2, 3] := rfl

theorem exR2_remaining :
    remainingPreds exR2 1 =
      [(4, predictedRating exR2 1 [(2, some 2), (1, some 0)] 4),
       (5, predictedRating exR2 1 [(2, some 2), (1, some 0)] 5)] := by
  unfold remainingPreds find_nearest_neighbour_ratings
  rw [exR2_neigh, exR2_watched, show exR2.movieIDs = [1, 2, 3, 4, 5] from rfl]
  simp only [List.map_cons, List.map_nil]
  simp [List.filter]

theorem exR2_topSel : topSelection exR2 1 2 = [(5, some (7 / 4)), (4, some (-(1 / 4)))] := by
  unfold topSelection
  rw [exR2_remaining, exR2_pred4, exR2_pred5]
  have hs : List.insertionSort simRel [(4, some (-(1 / 4) : ℝ)), (5, some (7 / 4))]
      = [(5, some (7 / 4)), (4, some (-(1 / 4)))] := by
    simp only [List.insertionSort, List.orderedInsert]
    rw [if_neg (by norm_num [simRel, keyBefore])]
  rw [hs]
  rfl

theorem exR2_topn : find_top_n_recommendations exR2 exCat 1 2 = [4, 5] := by
  unfold find_top_n_recommendations
  rw [exR2_topSel]
  rfl

/-- Claim C7 (counterexample): in `exR2` user 1 holds the present rating `0`
for movie 4, so movie 4 is in the known ratings of user 1; yet movie 4
appears in the returned recommendations, because the exclusion test is
`rating > 0`, not presence. -/
theorem claim_C7_counterexample :
    find_top_n_recommendations exR2 exCat 1 2 = [4, 5] ∧
    exR2.entryVal 1 4 = some 0 :=
  ⟨exR2_topn, rfl⟩

theorem getD_mem_or_default {α : Type _} (l : List α) (n : ℕ) (d : α) :
    l.getD n d ∈ l ∨ l.getD n d = d := by
  induction l generalizing n with
  | nil => right; cases n <;> rfl
  | cons a t ih =>
    cases n with
    | zero => left; rw [List.getD_cons_zero]; exact List.mem_cons_self a t
    | succ k =>
      rw [List.getD_cons_succ]
      rcases ih k with h | h
      · left; exact List.mem_cons_of_mem a h
      · right; exact h

theorem entriesPositive_spec (R : RatingMatrix) (h : entriesPositive R = true)
    (u m : ℕ) (v : ℚ) (he : R.entryVal u m = some v) : 0 < v := by
  unfold RatingMatrix.entryVal RatingMatrix.row at he
  rcases getD_mem_or_default R.rows (R.userIDs.findIdx fun x => x == u) [] with hr | hr
  · rcases getD_mem_or_default (R.rows.getD (R.userIDs.findIdx fun x => x == u) [])
        (R.movieIDs.findIdx fun x => x == m) none with hc | hc
    · rw [he] at hc
      unfold entriesPositive at h
      have h2 := (List.all_eq_true.mp h) _ hr
      have h3 := (List.all_eq_true.mp h2) _ hc
      simpa using h3
    · rw [he] at hc
      exact absurd hc (by simp)
  · rw [hr] at he
    simp [List.getD] at he

theorem nanmean_isSome_of_entry (R : RatingMatrix) (u m : ℕ) (v : ℚ)
    (he : R.entryVal u m = some v) : ∃ mu, nanmean (R.row u) = some mu := by
  unfold RatingMatrix.entryVal at he
  rcases getD_mem_or_default (R.row u) (R.movieIDs.findIdx fun x => x == m) none with hc | hc
  · rw [he] at hc
    have hv : v ∈ ratedValues (R.row u) := by
      unfold ratedValues
      exact List.mem_filterMap.mpr ⟨some v, hc, rfl⟩
    have hne : (ratedValues (R.row u)).isEmpty = false := by
      cases hrv : ratedValues (R.row u) with
      | nil => rw [hrv] at hv; exact absurd hv (List.not_mem_nil v)
      | cons a t => rfl
    unfold nanmean
    rw [hne]
    simp only [Bool.false_eq_true, if_false]
    exact ⟨_, rfl⟩
  · rw [hc] at he
    exact absurd he (by simp)

theorem nearestNeighbours_sim (R : RatingMatrix) (active k : ℕ) (p : ℕ × Option ℝ)
    (hp : p ∈ nearestNeighbours R active k) :
    p.1 ∈ R.userIDs ∧ p.2 = find_similarity (R.row active) (R.row p.1) := by
  have hp2 : p ∈ simTable R active := by
    have hs := (List.take_sublist k _).mem hp
    exact (List.mem_insertionSort simRel).mp hs
  unfold simTable at hp2
  obtain ⟨u, hu, he⟩ := List.mem_map.mp hp2
  constructor
  · rw [← he]
    exact hu
  · rw [← he]

theorem predContrib_eq_specTerm (R : RatingMatrix) (m : ℕ) (p : ℕ × Option ℝ)
    (hpos : entriesPositive R = true) (hs : (p.2).isSome = true) :
    predContrib R p.1 m p.2 = some (specNeighbourTerm R m p) := by
  obtain ⟨sv, hsv⟩ := Option.isSome_iff_exists.mp hs
  cases he : R.entryVal p.1 m with
  | none => simp [predContrib, specNeighbourTerm, he]
  | some v =>
    have hv : 0 < v := entriesPositive_spec R hpos p.1 m v he
    obtain ⟨mu, hmu⟩ := nanmean_isSome_of_entry R p.1 m v he
    unfold predContrib specNeighbourTerm
    rw [he, hmu, hsv]
    simp only [if_pos hv, Option.getD_some]
    push_cast
    rw [mul_comm]

theorem predicted_foldl (R : RatingMatrix) (m : ℕ) (neigh : List (ℕ × Option ℝ))
    (hs : ∀ p ∈ neigh, (p.2).isSome = true)
    (hpos : entriesPositive R = true) (b : ℝ) :
    neigh.foldl (fun acc p => optAdd acc (predContrib R p.1 m p.2)) (some b)
      = some (b + (neigh.map (fun p => specNeighbourTerm R m p)).sum) := by
  induction neigh generalizing b with
  | nil => simp
  | cons p t ih =>
    have hterm : predContrib R p.1 m p.2 = some (specNeighbourTerm R m p) :=
      predContrib_eq_specTerm R m p hpos (hs p (List.mem_cons_self p t))
    rw [List.foldl_cons, hterm,
      show optAdd (some b) (some (specNeighbourTerm R m p))
        = some (b + specNeighbourTerm R m p) from rfl,
      ih (fun q hq => hs q (List.mem_cons_of_mem p hq)),
      List.map_cons, List.sum_cons, add_assoc]

/-- Claim C3: for every active user, item and k, the neighbourhood-predicted
rating is the nanmean of the active user row plus, over the k selected
neighbours, `similarity * (rating - neighbour mean)` for neighbours holding
a rating for the item, and nothing for the others. Hypotheses: present
ratings are positive (the MovieLens domain, making the `> 0` test coincide
with having rated), the active user has rated something, and the involved
similarities are real numbers (not NaN). -/
theorem claim_C3_prediction_formula (R : RatingMatrix) (active k m : ℕ) (ma : ℚ)
    (hpos : entriesPositive R = true)
    (hma : nanmean (R.row active) = some ma)
    (hsim : ∀ u ∈ R.userIDs, simDefined (R.row active) (R.row u) = true) :
    predictedRating R active (nearestNeighbours R active k) m
      = some ((ma : ℝ) +
          ((nearestNeighbours R active k).map (fun p => specNeighbourTerm R m p)).sum) := by
  unfold predictedRating
  rw [hma]
  exact predicted_foldl R m _
    (fun p hp => by
      obtain ⟨hu, hps⟩ := nearestNeighbours_sim R active k p hp
      rw [hps]
      exact simDefined_isSome _ _ (hsim p.1 hu))
    hpos ma

theorem exR_restrict31 :
    restrictTo (centerVec [some 8, some 6, some 1, none, none]) [0, 1] = [3, 1] := by
  norm_num [restrictTo, centerVec, nanmean, ratedValues, List.filterMap_cons]

theorem exR_restrict24 :
    restrictTo (centerVec [some 6, some 8, some 1, some 2, some 3]) [0, 1] = [2, 4] := by
  norm_num [restrictTo, centerVec, nanmean, ratedValues, List.filterMap_cons]

theorem exR_simDef_11 : simDefined (exR.row 1) (exR.row 1) = true := by
  rw [exR_row1]
  unfold simDefined
  rw [exR_common11, exR_restrict31]
  have hd : duv [3, 1] [3, 1] = 1 := by norm_num [duv, avgMul, centerQ, cmeanQ]
  rw [hd]
  decide

theorem exR_simDef_12 : simDefined (exR.row 1) (exR.row 2) = true := by
  rw [exR_row1, exR_row2]
  unfold simDefined
  rw [exR_common12, exR_restrict31, exR_restrict24]
  have hd : duv [3, 1] [2, 4] = 1 := by norm_num [duv, avgMul, centerQ, cmeanQ]
  rw [hd]
  decide

theorem exR_entriesPositive : entriesPositive exR = true := by decide

/-- Witness for claim C3 at the concrete matrix `exR`, active user 1,
`k = 10` and item 4, with all three hypotheses checked by evaluation. -/
theorem claim_C3_witness :
    predictedRating exR 1 (nearestNeighbours exR 1 10) 4
      = some (((5 : ℚ) : ℝ) +
          ((nearestNeighbours exR 1 10).map (fun p => specNeighbourTerm exR 4 p)).sum) :=
  claim_C3_prediction_formula exR 1 10 4 5 exR_entriesPositive
    (by rw [exR_row1]; exact exR_nanmean1)
    (by
      intro u hu
      rw [show exR.userIDs = [1, 2] from rfl] at hu
      rcases List.mem_cons.mp hu with rfl | hu2
      · exact exR_simDef_11
      · rcases List.mem_cons.mp hu2 with rfl | hu3
        · exact exR_simDef_12
        · exact absurd hu3 (List.not_mem_nil u))

/-- Witness for claim C8 at the concrete matrix `exR`: the two rows have
equal length and co-rated set `[0, 1]`. -/
theorem claim_C8_witness :
    find_similarity (exR.row 1) (exR.row 2) = find_similarity (exR.row 2) (exR.row 1) :=
  claim_C8_similarity_symm (exR.row 1) (exR.row 2) rfl
    (by rw [exR_row1, exR_row2, exR_common12]; simp)

theorem getD_set_self {α : Type _} (l : List α) (n : ℕ) (a d : α) (h : n < l.length) :
    (l.set n a).getD n d = a := by
  induction l generalizing n with
  | nil => exact absurd h (Nat.not_lt_zero n)
  | cons b t ih =>
    cases n with
    | zero => rfl
    | succ k =>
      rw [List.set_cons_succ, List.getD_cons_succ]
      exact ih k (Nat.lt_of_succ_lt_succ h)

theorem getD_mem_of_lt {α : Type _} (l : List α) (n : ℕ) (d : α) (h : n < l.length) :
    l.getD n d ∈ l := by
  induction l generalizing n with
  | nil => exact absurd h (Nat.not_lt_zero n)
  | cons a t ih =>
    cases n with
    | zero => exact List.mem_cons_self a t
    | succ k =>
      rw [List.getD_cons_succ]
      exact List.mem_cons_of_mem a (ih k (Nat.lt_of_succ_lt_succ h))

/-- Claim C5: when the rating `(i, j)` exists, the inner SGD step first
replaces the user factor row by
`P[i] + gamma * (e * Q[j] - lamda * P[i])` (with `e` the error computed from
the pre-update factors), and then replaces the item factor row by
`Q[j] + gamma * (e * P[i] - lamda * Q[j])` where `P[i]` is the
already-updated user row of the same step: sequential coordinate updates, not
a synchronised batch. -/
theorem claim_C5_sgd_sequential_updates (gamma lamda : ℚ) (s : MFState) (i j : ℕ)
    (v : ℚ) (he : s.R.entryVal i j = some v) (hv : 0 < v)
    (hpi : idxOfUser s.R i < s.P.length) (hqj : idxOfMovie s.R j < s.Q.length) :
    userRow (sgdStep gamma lamda s i j) i =
      List.zipWith
        (fun p q => p + gamma * ((v - dotQ (userRow s i) (itemRow s j)) * q - lamda * p))
        (userRow s i) (itemRow s j) ∧
    itemRow (sgdStep gamma lamda s i j) j =
      List.zipWith
        (fun q p => q + gamma * ((v - dotQ (userRow s i) (itemRow s j)) * p - lamda * q))
        (itemRow s j) (userRow (sgdStep gamma lamda s i j) i) := by
  have hstep : sgdStep gamma lamda s i j =
      { s with
        P := s.P.set (idxOfUser s.R i)
          (List.zipWith
            (fun p q => p + gamma * ((v - dotQ (userRow s i) (itemRow s j)) * q - lamda * p))
            (userRow s i) (itemRow s j)),
        Q := s.Q.set (idxOfMovie s.R j)
          (List.zipWith
            (fun q p => q + gamma * ((v - dotQ (userRow s i) (itemRow s j)) * p - lamda * q))
            (itemRow s j)
            (List.zipWith
              (fun p q => p + gamma * ((v - dotQ (userRow s i) (itemRow s j)) * q - lamda * p))
              (userRow s i) (itemRow s j))) } := by
    unfold sgdStep
    rw [he]
    dsimp only
    rw [if_pos hv]
  have hP : userRow (sgdStep gamma lamda s i j) i =
      List.zipWith
        (fun p q => p + gamma * ((v - dotQ (userRow s i) (itemRow s j)) * q - lamda * p))
        (userRow s i) (itemRow s j) := by
    rw [hstep]
    unfold userRow
    dsimp only
    exact getD_set_self _ _ _ _ hpi
  refine ⟨hP, ?_⟩
  rw [hP, hstep]
  unfold itemRow
  dsimp only
  exact getD_set_self _ _ _ _ hqj

/-- Witness for claim C5 at a one-cell matrix with factor rows `[1]`. -/
theorem claim_C5_witness :
    userRow (sgdStep 1 1 ⟨exR3, [[1]], [[1]]⟩ 1 1) 1 =
      List.zipWith
        (fun p q => p + 1 * ((1 - dotQ (userRow ⟨exR3, [[1]], [[1]]⟩ 1)
          (itemRow ⟨exR3, [[1]], [[1]]⟩ 1)) * q - 1 * p))
        (userRow ⟨exR3, [[1]], [[1]]⟩ 1) (itemRow ⟨exR3, [[1]], [[1]]⟩ 1) ∧
    itemRow (sgdStep 1 1 ⟨exR3, [[1]], [[1]]⟩ 1 1) 1 =
      List.zipWith
        (fun q p => q + 1 * ((1 - dotQ (userRow ⟨exR3, [[1]], [[1]]⟩ 1)
          (itemRow ⟨exR3, [[1]], [[1]]⟩ 1)) * p - 1 * q))
        (itemRow ⟨exR3, [[1]], [[1]]⟩ 1) (userRow (sgdStep 1 1 ⟨exR3, [[1]], [[1]]⟩ 1 1) 1) :=
  claim_C5_sgd_sequential_updates 1 1 ⟨exR3, [[1]], [[1]]⟩ 1 1 1 rfl
    (by norm_num) (by decide) (by decide)

/-- Claim C9: a present rating with value at most 0 behaves as missing in
both engines: its neighbourhood contribution is the neutral `0`, the SGD
step leaves the state untouched, and its objective summand is `0` — because
every membership test is `value > 0`, not presence. -/
theorem claim_C9_nonpositive_as_missing (gamma lamda : ℚ) (st : MFState)
    (u m : ℕ) (v : ℚ) (sv : Option ℝ)
    (he : st.R.entryVal u m = some v) (hv : v ≤ 0) :
    predContrib st.R u m sv = some 0 ∧
    sgdStep gamma lamda st u m = st ∧
    errTerm lamda st u m = 0 := by
  have hnot : ¬ (0 < v) := not_lt.mpr hv
  refine ⟨?_, ?_, ?_⟩
  · unfold predContrib
    rw [he]
    dsimp only
    rw [if_neg hnot]
  · unfold sgdStep
    rw [he]
    dsimp only
    rw [if_neg hnot]
  · unfold errTerm
    rw [he]
    dsimp only
    rw [if_neg hnot]

/-- Witness for claim C9 at the concrete matrix `exR2`, whose cell `(1, 4)`
holds the present rating `0`. -/
theorem claim_C9_witness :
    predContrib exR2 1 4 (some 0) = some 0 ∧
    sgdStep 1 1 ⟨exR2, [], []⟩ 1 4 = ⟨exR2, [], []⟩ ∧
    errTerm 1 ⟨exR2, [], []⟩ 1 4 = 0 :=
  claim_C9_nonpositive_as_missing 1 1 ⟨exR2, [], []⟩ 1 4 0 (some 0) rfl (le_refl 0)

theorem sgdStep_R (gamma lamda : ℚ) (s : MFState) (i j : ℕ) :
    (sgdStep gamma lamda s i j).R = s.R := by
  unfold sgdStep
  cases s.R.entryVal i j with
  | none => rfl
  | some v =>
    dsimp only
    split_ifs <;> rfl

theorem foldl_sgd_R (gamma lamda : ℚ) (i : ℕ) (M : List ℕ) (s : MFState) :
    (M.foldl (fun s2 j => sgdStep gamma lamda s2 i j) s).R = s.R := by
  induction M generalizing s with
  | nil => rfl
  | cons a t ih => rw [List.foldl_cons, ih, sgdStep_R]

theorem foldl_rows_R (gamma lamda : ℚ) (M : List ℕ) (l : List ℕ) (s0 : MFState) :
    (l.foldl (fun s1 i => M.foldl (fun s2 j => sgdStep gamma lamda s2 i j) s1) s0).R
      = s0.R := by
  induction l generalizing s0 with
  | nil => rfl
  | cons a t ih => rw [List.foldl_cons, ih, foldl_sgd_R]

theorem mfEpoch_R (gamma lamda : ℚ) (s : MFState) : (mfEpoch gamma lamda s).R = s.R := by
  unfold mfEpoch
  exact foldl_rows_R gamma lamda s.R.movieIDs s.R.userIDs s

theorem iterate_R (gamma lamda : ℚ) (s : MFState) (t : ℕ) :
    ((mfEpoch gamma lamda)^[t] s).R = s.R := by
  induction t with
  | zero => rfl
  | succ n ih => rw [Function.iterate_succ_apply', mfEpoch_R, ih]

theorem sgdStep_shape (gamma lamda : ℚ) (K : ℕ) (s : MFState) (i j : ℕ)
    (hi : i ∈ s.R.userIDs) (hj : j ∈ s.R.movieIDs)
    (h : ShapeOK s.R K s.P s.Q) :
    ShapeOK s.R K (sgdStep gamma lamda s i j).P (sgdStep gamma lamda s i j).Q := by
  obtain ⟨hP, hPr, hQ, hQr⟩ := h
  have hpi : idxOfUser s.R i < s.P.length := by
    rw [hP]
    unfold idxOfUser
    exact List.findIdx_lt_length_of_exists ⟨i, hi, by simp⟩
  have hqj : idxOfMovie s.R j < s.Q.length := by
    rw [hQ]
    unfold idxOfMovie
    exact List.findIdx_lt_length_of_exists ⟨j, hj, by simp⟩
  have hPiLen : (userRow s i).length = K :=
    hPr _ (getD_mem_of_lt s.P (idxOfUser s.R i) [] hpi)
  have hQjLen : (itemRow s j).length = K :=
    hQr _ (getD_mem_of_lt s.Q (idxOfMovie s.R j) [] hqj)
  unfold sgdStep
  cases s.R.entryVal i j with
  | none => exact ⟨hP, hPr, hQ, hQr⟩
  | some v =>
    dsimp only
    split_ifs with hv
    · refine ⟨by simp [hP], ?_, by simp [hQ], ?_⟩
      · intro r hr
        rcases List.mem_or_eq_of_mem_set hr with h1 | h1
        · exact hPr r h1
        · subst h1
          rw [List.length_zipWith, hPiLen, hQjLen, min_self]
      · intro r hr
        rcases List.mem_or_eq_of_mem_set hr with h1 | h1
        · exact hQr r h1
        · subst h1
          rw [List.length_zipWith, List.length_zipWith, hPiLen, hQjLen, min_self, min_self]
    · exact ⟨hP, hPr, hQ, hQr⟩

theorem foldl_inner_pres (gamma lamda : ℚ) (K : ℕ) (i : ℕ) (M : List ℕ) (s : MFState)
    (hi : i ∈ s.R.userIDs) (hM : ∀ j ∈ M, j ∈ s.R.movieIDs)
    (h : ShapeOK s.R K s.P s.Q) :
    (M.foldl (fun s2 j => sgdStep gamma lamda s2 i j) s).R = s.R ∧
    ShapeOK s.R K (M.foldl (fun s2 j => sgdStep gamma lamda s2 i j) s).P
      (M.foldl (fun s2 j => sgdStep gamma lamda s2 i j) s).Q := by
  induction M generalizing s with
  | nil => exact ⟨rfl, h⟩
  | cons a t ih =>
    rw [List.foldl_cons]
    have hR1 := sgdStep_R gamma lamda s i a
    have hsh1 := sgdStep_shape gamma lamda K s i a hi (hM a (List.mem_cons_self a t)) h
    have hrec := ih (sgdStep gamma lamda s i a) (by rw [hR1]; exact hi)
      (fun j hj => by rw [hR1]; exact hM j (List.mem_cons_of_mem a hj))
      (by rw [hR1]; exact hsh1)
    refine ⟨by rw [hrec.1, hR1], ?_⟩
    have h2 := hrec.2
    rw [hR1] at h2
    exact h2

theorem foldl_outer_pres (gamma lamda : ℚ) (K : ℕ) (R0 : RatingMatrix)
    (l : List ℕ) (s : MFState) (hR : s.R = R0) (hl : ∀ i ∈ l, i ∈ R0.userIDs)
    (h : ShapeOK R0 K s.P s.Q) :
    (l.foldl (fun s1 i => R0.movieIDs.foldl (fun s2 j => sgdStep gamma lamda s2 i j) s1) s).R
      = R0 ∧
    ShapeOK R0 K
      (l.foldl (fun s1 i => R0.movieIDs.foldl (fun s2 j => sgdStep gamma lamda s2 i j) s1) s).P
      (l.foldl (fun s1 i => R0.movieIDs.foldl (fun s2 j => sgdStep gamma lamda s2 i j) s1) s).Q := by
  induction l generalizing s with
  | nil => exact ⟨hR, h⟩
  | cons a t ih =>
    rw [List.foldl_cons]
    have hinner := foldl_inner_pres gamma lamda K a R0.movieIDs s
      (by rw [hR]; exact hl a (List.mem_cons_self a t))
      (fun j hj => by rw [hR]; exact hj)
      (by rw [hR]; exact h)
    have hinnerR : (R0.movieIDs.foldl (fun s2 j => sgdStep gamma lamda s2 a j) s).R = R0 := by
      rw [hinner.1, hR]
    have hinnerS : ShapeOK R0 K
        (R0.movieIDs.foldl (fun s2 j => sgdStep gamma lamda s2 a j) s).P
        (R0.movieIDs.foldl (fun s2 j => sgdStep gamma lamda s2 a j) s).Q := by
      have h2 := hinner.2
      rw [hR] at h2
      exact h2
    exact ih _ hinnerR (fun i hi2 => hl i (List.mem_cons_of_mem a hi2)) hinnerS

theorem mfEpoch_pres (gamma lamda : ℚ) (K : ℕ) (s : MFState)
    (h : ShapeOK s.R K s.P s.Q) :
    ShapeOK s.R K (mfEpoch gamma lamda s).P (mfEpoch gamma lamda s).Q := by
  have := foldl_outer_pres gamma lamda K s.R s.R.userIDs s rfl (fun i hi => hi) h
  exact this.2

theorem iterate_pres (gamma lamda : ℚ) (K : ℕ) (R0 : RatingMatrix)
    (P0 Q0 : List (List ℚ)) (h : ShapeOK R0 K P0 Q0) (t : ℕ) :
    ShapeOK R0 K ((mfEpoch gamma lamda)^[t] ⟨R0, P0, Q0⟩).P
      ((mfEpoch gamma lamda)^[t] ⟨R0, P0, Q0⟩).Q := by
  induction t with
  | zero => exact h
  | succ n ih =>
    rw [Function.iterate_succ_apply']
    have hstep := mfEpoch_pres gamma lamda K ((mfEpoch gamma lamda)^[n] ⟨R0, P0, Q0⟩)
      (by rw [iterate_R]; exact ih)
    rw [iterate_R] at hstep
    exact hstep

theorem trainLoop_iterate (gamma lamda : ℚ) (t : ℕ) (s : MFState) :
    ∃ m, m ≤ t ∧ trainLoop gamma lamda t s = (mfEpoch gamma lamda)^[m] s ∧
      (∀ r, 1 ≤ r → r < m →
        ¬ errTot lamda ((mfEpoch gamma lamda)^[r] s) < 1 / 1000) ∧
      (m < t → 1 ≤ m ∧ errTot lamda ((mfEpoch gamma lamda)^[m] s) < 1 / 1000) := by
  induction t generalizing s with
  | zero =>
    exact ⟨0, le_refl 0, rfl, fun r h1 h2 => absurd h2 (by omega),
      fun h => absurd h (Nat.not_lt_zero 0)⟩
  | succ n ih =>
    unfold trainLoop
    by_cases hc : errTot lamda (mfEpoch gamma lamda s) < 1 / 1000
    · refine ⟨1, by omega, ?_, fun r h1 h2 => absurd h1 (by omega), fun _ => ?_⟩
      · rw [if_pos hc, Function.iterate_one]
      · exact ⟨le_refl 1, by rw [Function.iterate_one]; exact hc⟩
    · obtain ⟨m, hm, heq, hno, hconv⟩ := ih (mfEpoch gamma lamda s)
      refine ⟨m + 1, by omega, ?_, ?_, ?_⟩
      · rw [if_neg hc, heq, ← Function.iterate_succ_apply]
      · intro r h1 h2
        rcases (show r = 1 ∨ 2 ≤ r by omega) with hr | hr
        · subst hr
          rw [Function.iterate_one]
          exact hc
        · obtain ⟨r2, rfl⟩ : ∃ r2, r = r2 + 1 := ⟨r - 1, by omega⟩
          rw [Function.iterate_succ_apply]
          exact hno r2 (by omega) (by omega)
      · intro hlt
        obtain ⟨hm1, hcv⟩ := hconv (by omega)
        refine ⟨by omega, ?_⟩
        rw [Function.iterate_succ_apply]
        exact hcv

theorem errSpec_eq_errTot (lamda : ℚ) (s : MFState)
    (h : entriesPositive s.R = true) :
    errSpecObjective lamda s = errTot lamda s := by
  unfold errSpecObjective errTot
  congr 1
  apply List.map_congr_left
  intro i _
  congr 1
  apply List.map_congr_left
  intro j _
  unfold errTerm
  cases he : s.R.entryVal i j with
  | none => rfl
  | some v =>
    dsimp only
    rw [if_pos (entriesPositive_spec s.R h i j v he)]

/-- Claim C6: training performs at most `steps` epochs; after each full epoch
the total objective (sum over known ratings of squared error plus `lamda`
times the squared norms of the two factor rows) is computed, and the loop
terminates early exactly when it drops below `0.001`; the factor matrices are
returned in every case. Stated over matrices whose present ratings are
positive, where the spec notion of known rating coincides with the source
membership test `> 0`. -/
theorem claim_C6_training_termination (R : RatingMatrix) (K steps : ℕ)
    (gamma lamda : ℚ) (P0 Q0 : List (List ℚ))
    (hpos : entriesPositive R = true) :
    ∃ m, m ≤ steps ∧
      perform_matrix_factorization R K steps gamma lamda P0 Q0 =
        (((mfEpoch gamma lamda)^[m] ⟨R, P0, Q0⟩).P,
          ((mfEpoch gamma lamda)^[m] ⟨R, P0, Q0⟩).Q) ∧
      (∀ r, 1 ≤ r → r < m →
        ¬ errSpecObjective lamda ((mfEpoch gamma lamda)^[r] ⟨R, P0, Q0⟩) < 1 / 1000) ∧
      (m < steps → 1 ≤ m ∧
        errSpecObjective lamda ((mfEpoch gamma lamda)^[m] ⟨R, P0, Q0⟩) < 1 / 1000) := by
  obtain ⟨m, hm, heq, hno, hconv⟩ := trainLoop_iterate gamma lamda steps ⟨R, P0, Q0⟩
  have hbr : ∀ r, errSpecObjective lamda ((mfEpoch gamma lamda)^[r] ⟨R, P0, Q0⟩)
      = errTot lamda ((mfEpoch gamma lamda)^[r] ⟨R, P0, Q0⟩) := by
    intro r
    apply errSpec_eq_errTot
    rw [iterate_R]
    exact hpos
  refine ⟨m, hm, ?_, ?_, ?_⟩
  · unfold perform_matrix_factorization
    rw [heq]
  · intro r h1 h2
    rw [hbr r]
    exact hno r h1 h2
  · intro hlt
    obtain ⟨h1, h2⟩ := hconv hlt
    exact ⟨h1, by rw [hbr m]; exact h2⟩

/-- Witness for claim C6: a one-cell matrix trained for one step; the single
epoch runs (the objective stays above the threshold) and the function
returns the factor pair of that epoch. -/
theorem claim_C6_witness :
    perform_matrix_factorization exR3 1 1 1 1 [[1]] [[1]] =
      ((mfEpoch 1 1 ⟨exR3, [[1]], [[1]]⟩).P, (mfEpoch 1 1 ⟨exR3, [[1]], [[1]]⟩).Q) := by
  obtain ⟨m, hm, heq, _, hconv⟩ :=
    claim_C6_training_termination exR3 1 1 1 1 [[1]] [[1]] (by decide)
  rcases Nat.lt_or_ge m 1 with hlt | hge
  · obtain ⟨h1, _⟩ := hconv hlt
    omega
  · have hm1 : m = 1 := by omega
    rw [hm1, Function.iterate_one] at heq
    exact heq

/-- Claim C10: given initial factor matrices of the right shape, after every
epoch the rating matrix is unchanged, `P` still has one row per user of `R`
and `Q` one row per item, all rows of length `K`; and the returned pair
satisfies the same shape invariant. -/
theorem claim_C10_shape_invariant (R : RatingMatrix) (K steps : ℕ)
    (gamma lamda : ℚ) (P0 Q0 : List (List ℚ)) (hsh : ShapeOK R K P0 Q0) :
    (∀ t, ((mfEpoch gamma lamda)^[t] ⟨R, P0, Q0⟩).R = R ∧
      ShapeOK R K ((mfEpoch gamma lamda)^[t] ⟨R, P0, Q0⟩).P
        ((mfEpoch gamma lamda)^[t] ⟨R, P0, Q0⟩).Q) ∧
    (trainLoop gamma lamda steps ⟨R, P0, Q0⟩).R = R ∧
    ShapeOK R K (perform_matrix_factorization R K steps gamma lamda P0 Q0).1
      (perform_matrix_factorization R K steps gamma lamda P0 Q0).2 := by
  obtain ⟨m, hm, heq, _, _⟩ := trainLoop_iterate gamma lamda steps ⟨R, P0, Q0⟩
  refine ⟨fun t => ⟨iterate_R gamma lamda _ t, iterate_pres gamma lamda K R P0 Q0 hsh t⟩,
    ?_, ?_⟩
  · rw [heq, iterate_R]
  · unfold perform_matrix_factorization
    rw [heq]
    exact iterate_pres gamma lamda K R P0 Q0 hsh m

/-- Witness for claim C10: concrete shapes at the one-cell instance. -/
theorem claim_C10_witness :
    ((mfEpoch 1 1)^[1] ⟨exR3, [[1]], [[1]]⟩).R = exR3 ∧
    ShapeOK exR3 1 (perform_matrix_factorization exR3 1 1 1 1 [[1]] [[1]]).1
      (perform_matrix_factorization exR3 1 1 1 1 [[1]] [[1]]).2 :=
  ⟨((claim_C10_shape_invariant exR3 1 1 1 1 [[1]] [[1]]
      (by constructor <;> simp [exR3])).1 1).1,
    (claim_C10_shape_invariant exR3 1 1 1 1 [[1]] [[1]]
      (by constructor <;> simp [exR3])).2.2⟩
